import Mathlib

/-!
Shallow embedding of the Mass-Phisher bulk-mail pipeline (src/main.js).

The JavaScript source is a single file: it parses argv, builds a nodemailer
transport, loads a recipient list from a literal address or a `.txt`/`.csv`/
`.json` file, and sends one message per recipient (a sequential throttled
pass followed by a `Promise.all` pass over the same list).

Modelling conventions:
- JS strings are Lean `String` (a structure over `List Char`).
- `null`/`undefined` string-valued fields are `Option String` with `none`.
- JS truthiness of an optional string (`if (argv.link)`, `a || b`) is made
  explicit: `none` and the empty string are falsy.
- Promise rejection / thrown exceptions are `Except String`; a resolved
  promise is `Except.ok`.
- External collaborators (the file system, the csv-parser stream, JSON.parse,
  nodemailer's sendMail) are oracle parameters, so theorems quantify over
  every possible behaviour of those collaborators.
- Wall-clock throttling (`setTimeout(..., 500)`) has no observable effect on
  the value-level trace and is not modelled; the `Promise.all` pass is
  modelled by its list of per-recipient results in list order.
-/

/-- JS truthiness of an optional string: `undefined` and `""` are falsy. -/
def jsTruthyStr (o : Option String) : Bool :=
  match o with
  | none => false
  | some s => !(s == "")

/-- JS `a || b` for an optional string `a` and default `b`:
falls back to `b` when `a` is `undefined` or the empty string. -/
def jsOrStr (o : Option String) (d : String) : String :=
  match o with
  | none => d
  | some s => if s == "" then d else s

/-- Whitespace characters removed by JS `String.prototype.trim`
(space, tab, LF, CR, VT, FF, NBSP; the exotic Unicode spaces are omitted,
none of the claims depends on them). -/
def isWs (c : Char) : Bool :=
  c == ' ' || c == '\t' || c == '\n' || c == '\r' ||
  c == Char.ofNat 11 || c == Char.ofNat 12 || c == Char.ofNat 160

/-- Drop leading whitespace from a character list. -/
def trimL (l : List Char) : List Char := l.dropWhile isWs

/-- Drop trailing whitespace from a character list. -/
def trimR (l : List Char) : List Char := (l.reverse.dropWhile isWs).reverse

/-- JS `String.prototype.trim`: remove leading and trailing whitespace. -/
def jsTrim (s : String) : String := String.mk (trimR (trimL s.data))

/-- The subset of parsed command-line options (`argv`) that the send path
reads (src/main.js lines 178-204): spoofed sender name, link URL, link
display text, attachment path. -/
structure Argv where
  spoofName : Option String
  link : Option String
  linkText : Option String
  attachment : Option String
deriving DecidableEq, Repr

/-- The `mailOptions` object handed to `transporter.sendMail`
(src/main.js lines 179-204). `from` and `to` are reserved tokens in Lean,
hence `fromField` and `toField`.
`null` bodies are `none`. -/
structure MailOptions where
  fromField : String
  toField : String
  subject : String
  text : Option String
  html : Option String
  attachments : List String
deriving DecidableEq, Repr

/-- Construction of `mailOptions` inside `sendEmail`
(src/main.js lines 179-204): base object with exactly one body populated
matching the content mode, then the link override, then the attachment. -/
def buildMailOptions (argv : Argv) (user toAddr subject customMessage : String)
    (isHtml : Bool) : MailOptions :=
  let base : MailOptions :=
    { fromField := jsOrStr argv.spoofName "Sender" ++ " <" ++ user ++ ">"
      toField := toAddr
      subject := subject
      text := if isHtml then none else some customMessage
      html := if isHtml then some customMessage else none
      attachments := [] }
  let withLink :=
    if jsTruthyStr argv.link then
      let url := argv.link.getD ""
      let displayText := jsOrStr argv.linkText url
      let linkMessage :=
        if isHtml then
          "<p>" ++ customMessage ++ "</p><p>Link: <a href=\"" ++ url ++ "\">"
            ++ displayText ++ "</a></p>"
        else
          customMessage ++ "\nLink: " ++ url
      { base with
        html := if isHtml then some linkMessage else none
        text := if isHtml then none else some linkMessage }
    else base
  if jsTruthyStr argv.attachment then
    { withLink with attachments := withLink.attachments ++ [argv.attachment.getD ""] }
  else withLink

/-- The per-recipient outcome that `sendEmail` logs: `Email sent to: ...`
on success, `Error sending email to ...` on a caught transport error
(src/main.js lines 206-211). -/
inductive Outcome where
  | sent (toAddr : String)
  | failed (toAddr : String) (err : String)
deriving DecidableEq, Repr

/-- A transport oracle: the behaviour of `transporter.sendMail` for a given
message — either the promise resolves (`ok`) or it rejects / throws
(`error` with the error message). -/
def Transport : Type := MailOptions → Except String Unit

/-- The async function `sendEmail` (src/main.js lines 178-212) as a promise:
it builds `mailOptions`, awaits `transporter.sendMail` inside `try`, and the
`catch` turns any rejection into a logged, normally-completed outcome.
The result carries the `mailOptions` handed to the transport together with
the logged outcome; `Except.error` would be a rejection of `sendEmail`'s own
promise. -/
def sendEmailPromise (transport : Transport) (argv : Argv)
    (user toAddr subject customMessage : String) (isHtml : Bool) :
    Except String (MailOptions × Outcome) :=
  let mo := buildMailOptions argv user toAddr subject customMessage isHtml
  let attempt : Except String Outcome :=
    match transport mo with
    | Except.ok _ => Except.ok (Outcome.sent toAddr)
    | Except.error e => Except.error e
  match attempt with
  | Except.ok o => Except.ok (mo, o)
  | Except.error e => Except.ok (mo, Outcome.failed toAddr e)

/-- The value `sendEmailPromise` always resolves to (see
`sendEmailPromise_eq_ok`): the transport call and the caught outcome. -/
def sendEmailRun (transport : Transport) (argv : Argv)
    (user toAddr subject customMessage : String) (isHtml : Bool) :
    MailOptions × Outcome :=
  let mo := buildMailOptions argv user toAddr subject customMessage isHtml
  match transport mo with
  | Except.ok _ => (mo, Outcome.sent toAddr)
  | Except.error e => (mo, Outcome.failed toAddr e)

/-- The sequential throttled loop of `sendEmails`
(src/main.js lines 117-120): `for (let recipient of recipients) await
sendEmail(recipient.trim(), ...)`. An `await` on a rejected promise would
abort the loop, so the loop is a monadic traversal; the 500 ms throttle has
no value-level effect. -/
def dispatchSeq (transport : Transport) (argv : Argv)
    (user subject message : String) (isHtml : Bool) :
    List String → Except String (List (MailOptions × Outcome))
  | [] => Except.ok []
  | r :: rest =>
    match sendEmailPromise transport argv user (jsTrim r) subject message isHtml with
    | Except.error e => Except.error e
    | Except.ok p =>
      match dispatchSeq transport argv user subject message isHtml rest with
      | Except.error e => Except.error e
      | Except.ok ps => Except.ok (p :: ps)

/-- The full dispatch body of `sendEmails` (src/main.js lines 117-122):
the sequential throttled pass, then `await Promise.all(recipients.map(...))`
— a second complete pass over the same list. `Promise.all` resolves to the
per-recipient results in list order and rejects if any member rejects. -/
def dispatchAll (transport : Transport) (argv : Argv)
    (user subject message : String) (isHtml : Bool) (recipients : List String) :
    Except String (List (MailOptions × Outcome)) :=
  match dispatchSeq transport argv user subject message isHtml recipients with
  | Except.error e => Except.error e
  | Except.ok pass1 =>
    match dispatchSeq transport argv user subject message isHtml recipients with
    | Except.error e => Except.error e
    | Except.ok pass2 => Except.ok (pass1 ++ pass2)

/-- JS `String.prototype.split` with a one-character separator, on character
lists: splitting the empty string gives one empty segment, and each
separator occurrence starts a new segment. -/
def splitOnChar (sep : Char) : List Char → List (List Char)
  | [] => [[]]
  | c :: cs =>
    match splitOnChar sep cs with
    | [] => [[c]]
    | r :: rs => if c = sep then [] :: r :: rs else (c :: r) :: rs

/-- JS `data.split('\n')` on strings. -/
def jsSplitNl (data : String) : List String :=
  (splitOnChar '\n' data.data).map String.mk

/-- `readEmailsFromTxt`'s parsing of the file content
(src/main.js line 132): `data.split('\n').filter(email => email.trim())` —
keep exactly the lines whose trim is a non-empty (truthy) string; note the
kept lines are NOT trimmed here. The file read itself is the caller's
oracle. -/
def readEmailsFromTxt (data : String) : List String :=
  (jsSplitNl data).filter (fun email => !(jsTrim email == ""))

/-- A row produced by the csv-parser stream: an association list from column
name to cell string; a missing `email` column reads as `undefined`. -/
def rowField (row : List (String × String)) (k : String) : Option String :=
  (row.find? (fun f => f.1 == k)).map (fun f => f.2)

/-- `readEmailsFromCsv`'s per-row handling (src/main.js lines 145-149):
`if (row.email) recipients.push(row.email.trim())`. The stream+parse of the
file is an oracle producing the row list. -/
def readEmailsFromCsv (rows : List (List (String × String))) : List String :=
  rows.filterMap (fun row =>
    match rowField row "email" with
    | some s => if s == "" then none else some (jsTrim s)
    | none => none)

/-- A parsed JSON value (the result of `JSON.parse`). -/
inductive JsValue where
  | str (s : String)
  | num (n : Int)
  | bool (b : Bool)
  | null
  | arr (elems : List JsValue)
  | obj (fields : List (String × JsValue))
deriving Repr

/-- JS property access `r.email` on a parsed JSON value: a field lookup on
an object, `undefined` (`none`) on everything else. -/
def getField (v : JsValue) (k : String) : Option JsValue :=
  match v with
  | JsValue.obj fields => (fields.find? (fun f => f.1 == k)).map (fun f => f.2)
  | _ => none

/-- JS `r.email.trim()`: succeeds only when `r.email` is a string; on
`undefined` or a non-string value the call throws a TypeError. -/
def emailTrimCall (r : JsValue) : Except String String :=
  match getField r "email" with
  | some (JsValue.str s) => Except.ok (jsTrim s)
  | some _ => Except.error "TypeError: r.email.trim is not a function"
  | none => Except.error "TypeError: Cannot read properties of undefined"

/-- JS `Array.prototype.map(r => r.email.trim())`: stops at the first
throwing element. -/
def mapEmailTrim : List JsValue → Except String (List String)
  | [] => Except.ok []
  | r :: rs =>
    match emailTrimCall r with
    | Except.error e => Except.error e
    | Except.ok s =>
      match mapEmailTrim rs with
      | Except.error e => Except.error e
      | Except.ok ss => Except.ok (s :: ss)

/-- `readEmailsFromJson`'s handling of the parsed document
(src/main.js line 167):
`JSON.parse(data).map(r => r.email.trim()).filter(Boolean)` — the whole
chain sits in the `try`, so a TypeError from a missing/non-string `email`
field, like `.map` on a non-array, becomes the caught parse error.
`filter(Boolean)` drops the empty strings left by whitespace-only emails. -/
def readEmailsFromJson (v : JsValue) : Except String (List String) :=
  match v with
  | JsValue.arr elems =>
    match mapEmailTrim elems with
    | Except.error e => Except.error e
    | Except.ok l => Except.ok (l.filter (fun s => !(s == "")))
  | _ => Except.error "TypeError: JSON.parse(...).map is not a function"

/-- The basename of a POSIX path: the part after the last `/`. -/
def pathBasename (p : String) : String :=
  String.mk ((splitOnChar '/' p.data).getLastD p.data)

/-- Node's `path.extname` (src/main.js line 104): the substring of the
basename from its last `.` to the end; `""` when the basename has no `.` or
its only `.` is the leading character (dotfiles). -/
def extname (p : String) : String :=
  match splitOnChar '.' (pathBasename p).data with
  | [] => ""
  | [_] => ""
  | first :: rest =>
    if first = [] ∧ rest.length = 1 then ""
    else String.mk ('.' :: rest.getLastD [])

/-- How a run of `sendEmails` terminated on the recipient-loading side
(src/main.js lines 97-123): the unsupported-format early return (line 112),
a rejection propagated out of an awaited loader (which makes the
`sendEmails` promise itself reject, so nothing is sent), or normal
progression to the send loops. -/
inductive LoadOutcome where
  | unsupported
  | rejected (msg : String)
  | proceeded
deriving DecidableEq, Repr

/-- Observable result of one `sendEmails` invocation: how loading ended and
the trace of (mailOptions, outcome) pairs produced by the send passes. -/
structure SendEmailsResult where
  load : LoadOutcome
  trace : List (MailOptions × Outcome)
deriving DecidableEq, Repr

/-- The file-system oracle: `fs.readFile(path, 'utf8')` — content or error. -/
def FsRead : Type := String → Except String String

/-- The csv-parser stream oracle: rows parsed from the file at a path, or a
stream error. -/
def CsvRead : Type := String → Except String (List (List (String × String)))

/-- The `JSON.parse` oracle: a parsed value or a SyntaxError message. -/
def JsonParse : Type := String → Except String JsValue

/-- `sendEmails` (src/main.js lines 97-123): choose the recipient list from
a single literal address or from the targets file by extension, then run the
two send passes. Loader rejections (`Error reading file`, `Error reading CSV
file`, `Error parsing JSON`) propagate out of the awaits and nothing is
sent. -/
def sendEmails (fsRead : FsRead) (csvRead : CsvRead) (jsonParse : JsonParse)
    (transport : Transport) (argv : Argv) (user : String)
    (targetFilePath : String) (singleEmail : Option String)
    (subject message : String) (isHtml : Bool) : SendEmailsResult :=
  let go (recipients : List String) : SendEmailsResult :=
    match dispatchAll transport argv user subject message isHtml recipients with
    | Except.ok tr => ⟨LoadOutcome.proceeded, tr⟩
    | Except.error e => ⟨LoadOutcome.rejected e, []⟩
  if jsTruthyStr singleEmail then
    go [jsTrim (singleEmail.getD "")]
  else
    let ext := extname targetFilePath
    if ext = ".txt" then
      match fsRead targetFilePath with
      | Except.error e => ⟨LoadOutcome.rejected ("Error reading file: " ++ e), []⟩
      | Except.ok data => go (readEmailsFromTxt data)
    else if ext = ".csv" then
      match csvRead targetFilePath with
      | Except.error e => ⟨LoadOutcome.rejected ("Error reading CSV file: " ++ e), []⟩
      | Except.ok rows => go (readEmailsFromCsv rows)
    else if ext = ".json" then
      match fsRead targetFilePath with
      | Except.error e => ⟨LoadOutcome.rejected ("Error reading file: " ++ e), []⟩
      | Except.ok data =>
        match jsonParse data with
        | Except.error e => ⟨LoadOutcome.rejected ("Error parsing JSON: " ++ e), []⟩
        | Except.ok v =>
          match readEmailsFromJson v with
          | Except.error e => ⟨LoadOutcome.rejected ("Error parsing JSON: " ++ e), []⟩
          | Except.ok recips => go recips
    else ⟨LoadOutcome.unsupported, []⟩

/-- The `try`/`catch` in `sendEmail` makes its promise resolve with the run
value on every transport behaviour. -/
theorem sendEmailPromise_eq_ok (transport : Transport) (argv : Argv)
    (user toAddr subject customMessage : String) (isHtml : Bool) :
    sendEmailPromise transport argv user toAddr subject customMessage isHtml =
      Except.ok (sendEmailRun transport argv user toAddr subject customMessage isHtml) := by
  unfold sendEmailPromise sendEmailRun
  cases h : transport (buildMailOptions argv user toAddr subject customMessage isHtml) <;>
    simp [h]

/-- Neither the link override nor the attachment append touches the `to`
field of `mailOptions`. -/
theorem buildMailOptions_toField (argv : Argv)
    (user toAddr subject customMessage : String) (isHtml : Bool) :
    (buildMailOptions argv user toAddr subject customMessage isHtml).toField = toAddr := by
  unfold buildMailOptions
  cases jsTruthyStr argv.link <;> cases jsTruthyStr argv.attachment <;> simp

/-- The mail options produced by one run of `sendEmail` carry exactly the
recipient it was called with. -/
theorem sendEmailRun_fst_toField (transport : Transport) (argv : Argv)
    (user toAddr subject customMessage : String) (isHtml : Bool) :
    (sendEmailRun transport argv user toAddr subject customMessage isHtml).1.toField = toAddr := by
  unfold sendEmailRun
  cases h : transport (buildMailOptions argv user toAddr subject customMessage isHtml) <;>
    simp [h, buildMailOptions_toField]

/-- The sequential pass never rejects and yields one run per recipient, in
list order, on the trimmed recipient. -/
theorem dispatchSeq_eq_ok (transport : Transport) (argv : Argv)
    (user subject message : String) (isHtml : Bool) (recipients : List String) :
    dispatchSeq transport argv user subject message isHtml recipients =
      Except.ok (recipients.map
        (fun r => sendEmailRun transport argv user (jsTrim r) subject message isHtml)) := by
  induction recipients with
  | nil => rfl
  | cons r rest ih =>
    unfold dispatchSeq
    rw [sendEmailPromise_eq_ok, ih]
    rfl

/-- Both passes of `sendEmails` together: the dispatch always resolves, and
its trace is the per-recipient runs twice over, in list order. -/
theorem dispatchAll_eq_ok (transport : Transport) (argv : Argv)
    (user subject message : String) (isHtml : Bool) (recipients : List String) :
    dispatchAll transport argv user subject message isHtml recipients =
      Except.ok
        (recipients.map
          (fun r => sendEmailRun transport argv user (jsTrim r) subject message isHtml) ++
         recipients.map
          (fun r => sendEmailRun transport argv user (jsTrim r) subject message isHtml)) := by
  unfold dispatchAll
  rw [dispatchSeq_eq_ok]

/-- The head surviving a `dropWhile` fails the predicate. -/
theorem dropWhile_head_false {α : Type} (p : α → Bool) :
    ∀ (l : List α) (a : α) (as : List α), l.dropWhile p = a :: as → p a = false := by
  intro l
  induction l with
  | nil => intro a as h; simp [List.dropWhile] at h
  | cons b bs ih =>
    intro a as h
    by_cases hb : p b = true
    · rw [List.dropWhile_cons_of_pos hb] at h
      exact ih a as h
    · rw [List.dropWhile_cons_of_neg hb] at h
      cases h
      simpa using hb

/-- `dropWhile` is idempotent. -/
theorem dropWhile_dropWhile {α : Type} (p : α → Bool) (l : List α) :
    (l.dropWhile p).dropWhile p = l.dropWhile p := by
  cases h : l.dropWhile p with
  | nil => rfl
  | cons a as =>
    rw [List.dropWhile_cons_of_neg]
    simp [dropWhile_head_false p l a as h]

/-- Right-trimming only removes a (whitespace) suffix. -/
theorem trimR_append (l : List Char) :
    trimR l ++ (l.reverse.takeWhile isWs).reverse = l := by
  unfold trimR
  rw [← List.reverse_append, List.takeWhile_append_dropWhile, List.reverse_reverse]

/-- After a left trim, a further right trim exposes no new leading
whitespace: the left-trimmed, right-trimmed list is left-trim stable. -/
theorem trimL_trimR_trimL (l : List Char) :
    trimL (trimR (trimL l)) = trimR (trimL l) := by
  cases h : trimR (trimL l) with
  | nil => rfl
  | cons a as =>
    have hsplit := trimR_append (trimL l)
    rw [h] at hsplit
    have hd : trimL l = a :: (as ++ ((trimL l).reverse.takeWhile isWs).reverse) :=
      hsplit.symm
    have hhead : isWs a = false :=
      dropWhile_head_false isWs l a (as ++ ((trimL l).reverse.takeWhile isWs).reverse) hd
    unfold trimL
    rw [List.dropWhile_cons_of_neg]
    simp [hhead]

/-- `trimR` is idempotent. -/
theorem trimR_trimR (l : List Char) : trimR (trimR l) = trimR l := by
  unfold trimR
  rw [List.reverse_reverse, dropWhile_dropWhile]

/-- JS `trim` is idempotent: a trimmed string has no leading or trailing
whitespace left to remove. -/
theorem jsTrim_idem (s : String) : jsTrim (jsTrim s) = jsTrim s := by
  show String.mk (trimR (trimL (trimR (trimL s.data)))) = String.mk (trimR (trimL s.data))
  rw [trimL_trimR_trimL, trimR_trimR]

/-- A string trims to the empty string exactly when all its characters are
whitespace. -/
theorem jsTrim_eq_empty_iff (s : String) :
    jsTrim s = "" ↔ ∀ c ∈ s.data, isWs c = true := by
  have hmk : (jsTrim s = "") ↔ trimR (trimL s.data) = [] := by
    constructor
    · intro h
      have := congrArg String.data h
      simpa [jsTrim] using this
    · intro h
      simp [jsTrim, h]
  rw [hmk]
  unfold trimR trimL
  constructor
  · intro h c hc
    have hrev : (s.data.dropWhile isWs).reverse.dropWhile isWs = [] := by
      cases hd : (s.data.dropWhile isWs).reverse.dropWhile isWs with
      | nil => rfl
      | cons a as => rw [hd] at h; simp at h
    have hall : ∀ x ∈ (s.data.dropWhile isWs).reverse, isWs x = true :=
      List.dropWhile_eq_nil_iff.mp hrev
    have hall2 : ∀ x ∈ s.data.dropWhile isWs, isWs x = true := by
      intro x hx
      exact hall x (List.mem_reverse.mpr hx)
    have hsplit := List.takeWhile_append_dropWhile (p := isWs) (l := s.data)
    rw [← hsplit] at hc
    rcases List.mem_append.mp hc with htk | hdr
    · exact List.mem_takeWhile_imp htk
    · exact hall2 c hdr
  · intro h
    have : s.data.dropWhile isWs = [] :=
      List.dropWhile_eq_nil_iff.mpr h
    simp [this]

/-- A transport whose sendMail always resolves. -/
def okTransport : Transport := fun _ => Except.ok ()

/-- An argv with no spoof name, link, link text or attachment. -/
def argv0 : Argv := ⟨none, none, none, none⟩

/-- C3: for every base message, content mode, and optional link / link-text /
attachment input, the composed mail message never has both the plain-text
body and the HTML body non-empty simultaneously — the body of the inactive
content mode is always left empty (`null`). -/
theorem C3_bodies_mutually_exclusive (argv : Argv)
    (user toAddr subject customMessage : String) (isHtml : Bool) :
    (buildMailOptions argv user toAddr subject customMessage isHtml).text = none ∨
    (buildMailOptions argv user toAddr subject customMessage isHtml).html = none := by
  unfold buildMailOptions
  cases isHtml <;> cases jsTruthyStr argv.link <;> cases jsTruthyStr argv.attachment <;> simp

/-- C4: for every base message and present (truthy) link, the display text
defaults to the URL when no explicit display text is given, and the link
overrides the body of the active content mode: in HTML mode the HTML body is
the base message paragraph followed by the anchor and the plain body is
empty; in plain mode the plain body is the base message, a newline, and
`Link: url`, with the HTML body empty. -/
theorem C4_link_overrides_body (argv : Argv)
    (user toAddr subject customMessage url : String)
    (hlink : argv.link = some url) (hne : url ≠ "") :
    (argv.linkText = none → jsOrStr argv.linkText url = url) ∧
    ((buildMailOptions argv user toAddr subject customMessage true).html =
        some ("<p>" ++ customMessage ++ "</p><p>Link: <a href=\"" ++ url ++ "\">"
          ++ jsOrStr argv.linkText url ++ "</a></p>") ∧
      (buildMailOptions argv user toAddr subject customMessage true).text = none) ∧
    ((buildMailOptions argv user toAddr subject customMessage false).text =
        some (customMessage ++ "\nLink: " ++ url) ∧
      (buildMailOptions argv user toAddr subject customMessage false).html = none) := by
  have htruthy : jsTruthyStr argv.link = true := by
    simp [jsTruthyStr, hlink, hne]
  refine ⟨fun h => by simp [jsOrStr, h], ?_, ?_⟩ <;>
  · unfold buildMailOptions
    rw [htruthy]
    cases jsTruthyStr argv.attachment <;> simp [hlink]

/-- C4 witness: the spec's own example — link `https://x.com`, no explicit
display text, base message `Hi` — in both content modes. -/
theorem C4_link_overrides_body_witness :
    ((⟨none, some "https://x.com", none, none⟩ : Argv).link = some "https://x.com"
      ∧ "https://x.com" ≠ "") ∧
    ((buildMailOptions ⟨none, some "https://x.com", none, none⟩ "u@y.com" "a@x.com" "S" "Hi" true).html =
        some "<p>Hi</p><p>Link: <a href=\"https://x.com\">https://x.com</a></p>" ∧
      (buildMailOptions ⟨none, some "https://x.com", none, none⟩ "u@y.com" "a@x.com" "S" "Hi" true).text = none) ∧
    ((buildMailOptions ⟨none, some "https://x.com", none, none⟩ "u@y.com" "a@x.com" "S" "Hi" false).text =
        some "Hi\nLink: https://x.com" ∧
      (buildMailOptions ⟨none, some "https://x.com", none, none⟩ "u@y.com" "a@x.com" "S" "Hi" false).html = none) := by
  refine ⟨⟨rfl, by decide⟩, ?_⟩
  have h := C4_link_overrides_body ⟨none, some "https://x.com", none, none⟩
    "u@y.com" "a@x.com" "S" "Hi" "https://x.com" rfl (by decide)
  exact ⟨h.2.1, h.2.2⟩

/-- C8: message composition is a deterministic function of its inputs —
composing twice from identical base message, content mode, link, link text,
attachment path and spoofed name yields byte-identical mail options; the
embedding of the composition reads no clock and no random state. -/
theorem C8_compose_deterministic (a1 a2 : Argv) (u1 u2 t1 t2 s1 s2 m1 m2 : String)
    (h1 h2 : Bool) (ha : a1 = a2) (hu : u1 = u2) (ht : t1 = t2) (hs : s1 = s2)
    (hm : m1 = m2) (hh : h1 = h2) :
    buildMailOptions a1 u1 t1 s1 m1 h1 = buildMailOptions a2 u2 t2 s2 m2 h2 := by
  subst ha hu ht hs hm hh
  rfl

/-- C8 witness: two composions from the same concrete inputs coincide. -/
theorem C8_compose_deterministic_witness :
    buildMailOptions argv0 "u@y.com" "a@x.com" "S" "Hi" true =
      buildMailOptions argv0 "u@y.com" "a@x.com" "S" "Hi" true :=
  C8_compose_deterministic argv0 argv0 "u@y.com" "u@y.com" "a@x.com" "a@x.com"
    "S" "S" "Hi" "Hi" true true rfl rfl rfl rfl rfl rfl

/-- C9: the per-recipient send is total at its interface — for every input
and every transport behaviour, including a rejecting or throwing transport,
`sendEmail`'s promise resolves (is `Except.ok`) and never rejects, because
the transport call sits inside the function's try/catch. -/
theorem C9_sendEmail_never_rejects (transport : Transport) (argv : Argv)
    (user toAddr subject customMessage : String) (isHtml : Bool) :
    ∃ p, sendEmailPromise transport argv user toAddr subject customMessage isHtml =
      Except.ok p :=
  ⟨_, sendEmailPromise_eq_ok transport argv user toAddr subject customMessage isHtml⟩

/-- C2: a transport failure on one recipient never prevents the delivery
attempts for the later recipients — for every transport behaviour whatsoever
(in particular one failing at any recipient k), the dispatch resolves and its
trace addresses every recipient of the list, in list order, in each pass. -/
theorem C2_failure_is_recipient_scoped (transport : Transport) (argv : Argv)
    (user subject message : String) (isHtml : Bool) (recipients : List String) :
    ∃ tr, dispatchAll transport argv user subject message isHtml recipients =
        Except.ok tr ∧
      tr.map (fun p => p.1.toField) =
        recipients.map jsTrim ++ recipients.map jsTrim := by
  refine ⟨_, dispatchAll_eq_ok transport argv user subject message isHtml recipients, ?_⟩
  have hfun : ∀ r, (sendEmailRun transport argv user (jsTrim r) subject message
      isHtml).1.toField = jsTrim r :=
    fun r => sendEmailRun_fst_toField transport argv user (jsTrim r) subject message isHtml
  have hcomp : ((fun p : MailOptions × Outcome => p.1.toField) ∘
      fun r => sendEmailRun transport argv user (jsTrim r) subject message isHtml) = jsTrim :=
    funext hfun
  simp only [List.map_append, List.map_map, hcomp]

/-- C10: every recipient address handed to the transport's `to` field is
whitespace-trimmed — the dispatcher applies trim at send time, so each `to`
in the trace is trim-stable (has no leading or trailing whitespace), whatever
the loader produced. -/
theorem C10_to_is_trimmed (transport : Transport) (argv : Argv)
    (user subject message : String) (isHtml : Bool) (recipients : List String)
    (tr : List (MailOptions × Outcome))
    (htr : dispatchAll transport argv user subject message isHtml recipients =
      Except.ok tr) :
    ∀ p ∈ tr, jsTrim p.1.toField = p.1.toField := by
  rw [dispatchAll_eq_ok] at htr
  injection htr with htr
  subst htr
  intro p hp
  rcases List.mem_append.mp hp with h | h <;>
  · rcases List.mem_map.mp h with ⟨r, _, rfl⟩
    rw [sendEmailRun_fst_toField]
    exact jsTrim_idem r


/-- C10 witness: a single untrimmed recipient; the dispatch trace hands the
trimmed address to the transport, and that address is trim-stable. -/
theorem C10_to_is_trimmed_witness :
    dispatchAll okTransport argv0 "u@y.com" "S" "hello" false ["  a@x.com "] =
      Except.ok
        [(⟨"Sender <u@y.com>", "a@x.com", "S", some "hello", none, []⟩, Outcome.sent "a@x.com"),
         (⟨"Sender <u@y.com>", "a@x.com", "S", some "hello", none, []⟩, Outcome.sent "a@x.com")] ∧
    jsTrim "a@x.com" = "a@x.com" := by
  constructor
  · rfl
  · exact C10_to_is_trimmed okTransport argv0 "u@y.com" "S" "hello" false ["  a@x.com "]
      [(⟨"Sender <u@y.com>", "a@x.com", "S", some "hello", none, []⟩, Outcome.sent "a@x.com"),
       (⟨"Sender <u@y.com>", "a@x.com", "S", some "hello", none, []⟩, Outcome.sent "a@x.com")]
      rfl
      (⟨"Sender <u@y.com>", "a@x.com", "S", some "hello", none, []⟩, Outcome.sent "a@x.com")
      (List.mem_cons_self _ _)

/-- C1: evaluation of the dispatch at a one-recipient list under an
always-succeeding transport. The claim says each address is passed to the
transport exactly once; the code's `sendEmails` body (src/main.js lines
117-122) runs the sequential throttled pass AND a second `Promise.all` pass
over the same list, so the single recipient receives two delivery
attempts. -/
theorem C1_each_recipient_attempted_twice :
    (dispatchAll okTransport argv0 "u@y.com" "S" "hello" false ["a@x.com"]).map
      (List.map (fun p => p.1.toField)) = Except.ok ["a@x.com", "a@x.com"] := by
  rfl

/-- C5 counterexample: a `.txt` content whose first line carries surrounding
whitespace. The loader keeps the line verbatim —
`data.split('\n').filter(email => email.trim())` filters on trimmed
emptiness but never maps `trim` over the kept lines — so the result is not
the list of trimmed lines the claim demands. -/
theorem C5_counterexample :
    readEmailsFromTxt " a@x.com \nb@y.com" = [" a@x.com ", "b@y.com"] ∧
    readEmailsFromTxt " a@x.com \nb@y.com" ≠ ["a@x.com", "b@y.com"] := by
  constructor
  · rfl
  · decide

/-- C5 (amended): loading a `.txt` content returns exactly the lines that
are not blank or whitespace-only, in file line order, each kept verbatim
(NOT trimmed — trimming happens later, at send time). -/
theorem C5_txt_keeps_nonblank_lines_verbatim (data : String) :
    readEmailsFromTxt data =
      (jsSplitNl data).filter (fun l => !(l.data.all isWs)) := by
  unfold readEmailsFromTxt
  apply List.filter_congr
  intro x _
  have hiff : (jsTrim x == "") = true ↔ (x.data.all isWs) = true := by
    rw [beq_iff_eq, List.all_eq_true]
    exact jsTrim_eq_empty_iff x
  have heq : (jsTrim x == "") = x.data.all isWs := Bool.eq_iff_iff.mpr hiff
  rw [heq]

/-- The string value of the `email` field of a parsed JSON object, read off
a witness that the field is present and a string. -/
def emailStrD (v : JsValue) : String :=
  match getField v "email" with
  | some (JsValue.str s) => s
  | _ => ""

/-- C6 counterexample: a JSON array in which the second object lacks the
`email` field. The chain `JSON.parse(data).map(r => r.email.trim())` throws
a TypeError on that object (caught and turned into the loader's rejection),
so loading fails instead of skipping the object. -/
theorem C6_counterexample :
    readEmailsFromJson
        (JsValue.arr [JsValue.obj [("email", JsValue.str "a@x.com")],
                      JsValue.obj [("name", JsValue.str "bob")]]) =
      Except.error "TypeError: Cannot read properties of undefined" := by
  rfl

/-- C6 (amended): loading a parsed `.json` array succeeds exactly when every
element carries a string `email` field; it then returns the trimmed values,
with the ones that trim to empty filtered out, in array order. An element
missing the field makes the whole load fail — it is not skipped. -/
theorem C6_json_missing_email_field_rejects (elems : List JsValue)
    (h : ∀ v ∈ elems, ∃ s, getField v "email" = some (JsValue.str s)) :
    readEmailsFromJson (JsValue.arr elems) =
      Except.ok ((elems.map (fun v => jsTrim (emailStrD v))).filter
        (fun s => !(s == ""))) := by
  have hmap : mapEmailTrim elems =
      Except.ok (elems.map (fun v => jsTrim (emailStrD v))) := by
    induction elems with
    | nil => rfl
    | cons v vs ih =>
      rcases h v (List.mem_cons_self v vs) with ⟨s, hs⟩
      have hcall : emailTrimCall v = Except.ok (jsTrim s) := by
        unfold emailTrimCall
        rw [hs]
      have hstr : emailStrD v = s := by
        unfold emailStrD
        rw [hs]
      have ihh := ih (fun w hw => h w (List.mem_cons_of_mem v hw))
      unfold mapEmailTrim
      rw [hcall, ihh]
      simp [hstr]
  have hred : readEmailsFromJson (JsValue.arr elems) =
      match mapEmailTrim elems with
      | Except.error e => Except.error e
      | Except.ok l => Except.ok (l.filter (fun s => !(s == ""))) := rfl
  rw [hred, hmap]

/-- C6 witness: every element has a string `email` field (the second one
whitespace-only), so loading succeeds, trims, and drops the blank entry. -/
theorem C6_json_missing_email_field_rejects_witness :
    (∀ v ∈ [JsValue.obj [("email", JsValue.str " a@x.com ")],
            JsValue.obj [("email", JsValue.str "  ")]],
        ∃ s, getField v "email" = some (JsValue.str s)) ∧
    readEmailsFromJson
        (JsValue.arr [JsValue.obj [("email", JsValue.str " a@x.com ")],
                      JsValue.obj [("email", JsValue.str "  ")]]) =
      Except.ok ["a@x.com"] := by
  have hh : ∀ v ∈ [JsValue.obj [("email", JsValue.str " a@x.com ")],
      JsValue.obj [("email", JsValue.str "  ")]],
      ∃ s, getField v "email" = some (JsValue.str s) := by
    intro v hv
    rcases List.mem_cons.mp hv with rfl | hv2
    · exact ⟨" a@x.com ", rfl⟩
    · rcases List.mem_cons.mp hv2 with rfl | hv3
      · exact ⟨"  ", rfl⟩
      · cases hv3
  refine ⟨hh, ?_⟩
  rw [C6_json_missing_email_field_rejects _ hh]
  rfl

/-- C7: for every targets path whose extension is none of `.txt`, `.csv`,
`.json`, with no single literal address given, `sendEmails` takes the
unsupported-format early return: the result is a constant independent of
the file system, the CSV stream, the JSON parser and the transport — so no
read, partial or otherwise, and no delivery attempt happens. -/
theorem C7_unsupported_extension_sends_nothing (fsRead : FsRead)
    (csvRead : CsvRead) (jsonParse : JsonParse) (transport : Transport)
    (argv : Argv) (user targetFilePath : String) (singleEmail : Option String)
    (subject message : String) (isHtml : Bool)
    (hsingle : jsTruthyStr singleEmail = false)
    (htxt : extname targetFilePath ≠ ".txt")
    (hcsv : extname targetFilePath ≠ ".csv")
    (hjson : extname targetFilePath ≠ ".json") :
    sendEmails fsRead csvRead jsonParse transport argv user targetFilePath
      singleEmail subject message isHtml =
      ⟨LoadOutcome.unsupported, []⟩ := by
  unfold sendEmails
  simp [hsingle, htxt, hcsv, hjson]

/-- A file-system oracle that fails every read. -/
def noFs : FsRead := fun _ => Except.error "ENOENT"

/-- A CSV stream oracle that fails every read. -/
def noCsv : CsvRead := fun _ => Except.error "ENOENT"

/-- A JSON parse oracle that rejects every document. -/
def noJson : JsonParse := fun _ => Except.error "SyntaxError"

/-- C7 witness: a `.pdf` targets file and no literal address — the run
reports the unsupported format and sends nothing. -/
theorem C7_unsupported_extension_sends_nothing_witness :
    (jsTruthyStr none = false ∧ extname "targets.pdf" ≠ ".txt" ∧
      extname "targets.pdf" ≠ ".csv" ∧ extname "targets.pdf" ≠ ".json") ∧
    sendEmails noFs noCsv noJson okTransport argv0 "u@y.com" "targets.pdf"
      none "S" "hello" false = ⟨LoadOutcome.unsupported, []⟩ := by
  refine ⟨⟨rfl, by decide, by decide, by decide⟩, ?_⟩
  exact C7_unsupported_extension_sends_nothing noFs noCsv noJson okTransport
    argv0 "u@y.com" "targets.pdf" none "S" "hello" false rfl
    (by decide) (by decide) (by decide)
